import Mathlib

/-!
# Verification of `scripts/mongo-init.js`

The script is a MongoDB shell program: it selects the `admin` database, tries to
create the user `crawler_admin`, selects the `web_crawler` database and tries to
create three collections and three indexes, printing one status line per phase.

The embedding below keeps the script's shape: a small exception-and-state
monad `Script` for the shell, one statement per shell helper that the script
calls, and the two `try`/`catch` blocks written with `tryCatch`.  The database
server is a parameter (`Backend`); `strictDb` is the server in which a create
call fails exactly when its target already exists.

In `Backend` a call throws error objects.  The namespace `Raw` repeats the
script for calls that may throw any JavaScript value, with the handlers' reads
of `error.code` and `error.message` as statements that throw on `null` and
`undefined`; `Raw.mongoInit_ofBackend` relates the two embeddings.
-/

namespace MongoInit

/-! ## Values -/

/-- The JavaScript values that occur in the script's documents and errors. -/
inductive JsVal
  | undefined
  | bool (b : Bool)
  | num (n : Int)
  | str (s : String)
  deriving DecidableEq, Repr

/-- An error object thrown by a shell helper.  The script reads `error.code`
and `error.message`; a missing property reads as `undefined`. -/
structure Err where
  code : JsVal
  message : JsVal
  deriving DecidableEq, Repr

/-- One entry of the `roles` array of a user document: `{ role: ..., db: ... }`. -/
structure Role where
  role : String
  db : String
  deriving DecidableEq, Repr

/-- The document passed to `db.createUser`. -/
structure UserDoc where
  user : String
  pwd : String
  roles : List Role
  deriving DecidableEq, Repr

/-- An index as requested by `db.<collection>.createIndex(keys, options)`:
`keys` is the ordered key specification, `options` the options object
(empty when the call passes none). -/
structure IndexDecl where
  collection : String
  keys : List (String × JsVal)
  options : List (String × JsVal)
  deriving DecidableEq, Repr

/-- An index carries a uniqueness constraint when its options say `unique: true`. -/
def IndexDecl.isUnique (i : IndexDecl) : Bool :=
  i.options.lookup "unique" == some (JsVal.bool true)

/-- A text index has a key of the special type `"text"`. -/
def IndexDecl.isText (i : IndexDecl) : Bool :=
  i.keys.any (fun k => k.2 == JsVal.str "text")

/-! ## The database server -/

/-- What one database holds: its user registry, its collections, its indexes. -/
structure Database where
  users : List UserDoc
  collections : List String
  indexes : List IndexDecl
  deriving DecidableEq, Repr

/-- The server: every database name denotes a database (empty until written to). -/
abbrev Server := String → Database

/-- The fresh instance: no users, no collections, no indexes anywhere. -/
def Server.empty : Server := fun _ => { users := [], collections := [], indexes := [] }

/-- The database calls the script makes, with the database they are sent to. -/
inductive Call
  | createUser (db : String) (doc : UserDoc)
  | createCollection (db : String) (name : String)
  | createIndex (db : String) (decl : IndexDecl)
  deriving DecidableEq, Repr

/-- The database a call is sent to. -/
def Call.db : Call → String
  | .createUser db _ => db
  | .createCollection db _ => db
  | .createIndex db _ => db

/-- A server answers a call either with the new server state or by throwing;
a call that throws leaves the state as it was. -/
abbrev Backend := Server → Call → Except Err Server

/-- Whether the target of a create call is already there: a user of that name
in the registry, a collection of that name, an index on the same collection
with the same key specification. -/
def targetExists (s : Server) : Call → Bool
  | .createUser db doc => (s db).users.any (fun u => u.user == doc.user)
  | .createCollection db name => (s db).collections.contains name
  | .createIndex db decl =>
      (s db).indexes.any (fun i => i.collection == decl.collection && i.keys == decl.keys)

/-- The effect of a create call that succeeds: the target is added to its database. -/
def effect (s : Server) : Call → Server
  | .createUser db doc =>
      Function.update s db { s db with users := (s db).users ++ [doc] }
  | .createCollection db name =>
      Function.update s db { s db with collections := (s db).collections ++ [name] }
  | .createIndex db decl =>
      Function.update s db { s db with indexes := (s db).indexes ++ [decl] }

/-- The server in which a create call fails when its target already exists and
succeeds otherwise; `errOf` is the error it throws for a call. -/
def strictDb (errOf : Call → Err) : Backend := fun s c =>
  if targetExists s c then .error (errOf c) else .ok (effect s c)

/-! ## The shell -/

/-- One argument of a `print` call: a value, or an error object printed as such. -/
inductive PrintArg
  | val (v : JsVal)
  | err (e : Err)
  deriving DecidableEq, Repr

/-- The state of a shell session: the server, the global variable `db`
(the name of the selected database), the lines printed so far (each the
argument list of one `print`), and a log of the database calls attempted so
far with the error each one threw, if any. -/
structure Machine where
  server : Server
  db : String
  out : List (List PrintArg)
  trace : List (Call × Option Err)

/-- How a statement ends: normally, or by throwing. -/
inductive Completion (α : Type)
  | normal (a : α)
  | thrown (e : Err)
  deriving Repr

/-- A shell statement: it transforms the session and completes or throws;
the session changes made before a throw stay. -/
def Script (α : Type) : Type := Machine → Completion α × Machine

instance : Monad Script where
  pure a := fun m => (.normal a, m)
  bind x f := fun m =>
    match x m with
    | (.normal a, m1) => f a m1
    | (.thrown e, m1) => (.thrown e, m1)

/-- The statement `try { body } catch (error) { handler }`. -/
def tryCatch (body : Script Unit) (handler : Err → Script Unit) : Script Unit := fun m =>
  match body m with
  | (.normal a, m1) => (.normal a, m1)
  | (.thrown e, m1) => handler e m1

/-- The statement `print(args...)`. -/
def print (args : List PrintArg) : Script Unit := fun m =>
  (.normal (), { m with out := m.out ++ [args] })

/-- The statement `db = db.getSiblingDB(name)`. -/
def getSiblingDB (name : String) : Script Unit := fun m =>
  (.normal (), { m with db := name })

/-- Sending a call to the server: on success the server state is replaced, on
failure the error is thrown; either way the call is logged. -/
def invoke (B : Backend) (c : Call) : Script Unit := fun m =>
  match B m.server c with
  | .ok s => (.normal (), { m with server := s, trace := m.trace ++ [(c, none)] })
  | .error e => (.thrown e, { m with trace := m.trace ++ [(c, some e)] })

/-- The statement `db.createUser(doc)`. -/
def createUser (B : Backend) (doc : UserDoc) : Script Unit := fun m =>
  invoke B (.createUser m.db doc) m

/-- The statement `db.createCollection(name)`. -/
def createCollection (B : Backend) (name : String) : Script Unit := fun m =>
  invoke B (.createCollection m.db name) m

/-- The statement `db.<coll>.createIndex(keys, options)`. -/
def createIndex (B : Backend) (coll : String) (keys options : List (String × JsVal)) :
    Script Unit := fun m =>
  invoke B (.createIndex m.db { collection := coll, keys := keys, options := options }) m

/-! ## The script -/

/-- The user document of lines 9-22. -/
def crawlerAdmin : UserDoc :=
  { user := "crawler_admin"
    pwd := "Crawler2026SecurePass"
    roles := [ { role := "readWrite", db := "web_crawler" },
               { role := "dbAdmin", db := "web_crawler" } ] }

/-- Line 23. -/
def lineUserCreated : List PrintArg :=
  [.val (.str "✅ MongoDB user \"crawler_admin\" created successfully")]

/-- Line 26. -/
def lineUserExists : List PrintArg :=
  [.val (.str "ℹ️  User \"crawler_admin\" already exists")]

/-- Line 28. -/
def lineUserError (error : Err) : List PrintArg :=
  [.val (.str "❌ Error creating user:"), .err error]

/-- Line 46. -/
def lineSchemaCreated : List PrintArg :=
  [.val (.str "✅ Collections and indexes created successfully")]

/-- Line 48. -/
def lineSchemaMayExist (message : JsVal) : List PrintArg :=
  [.val (.str "ℹ️  Collections may already exist:"), .val message]

/-- Lines 8-30: the first `try`/`catch`. -/
def phase1 (B : Backend) : Script Unit :=
  tryCatch
    (do
      createUser B crawlerAdmin
      print lineUserCreated)
    (fun error =>
      if error.code = JsVal.num 11000 then
        print lineUserExists
      else
        print (lineUserError error))

/-- Lines 36-49: the second `try`/`catch`. -/
def phase2 (B : Backend) : Script Unit :=
  tryCatch
    (do
      createCollection B "sources"
      createCollection B "crawled_data"
      createCollection B "crawl_logs"
      createIndex B "crawled_data" [("content", .str "text"), ("title", .str "text")] []
      createIndex B "crawled_data" [("source_id", .num 1), ("timestamp", .num 1)] []
      createIndex B "sources" [("url", .num 1)] [("unique", .bool true)]
      print lineSchemaCreated)
    (fun error => print (lineSchemaMayExist error.message))

/-- The whole script, lines 5-49. -/
def mongoInit (B : Backend) : Script Unit := do
  getSiblingDB "admin"
  phase1 B
  getSiblingDB "web_crawler"
  phase2 B

/-- A session that has printed nothing and called nothing yet, on server `s`
with `db0` selected. -/
def Machine.start (s : Server) (db0 : String) : Machine :=
  { server := s, db := db0, out := [], trace := [] }

/-- The session after one run of the script. -/
def run (B : Backend) (s : Server) (db0 : String) : Machine :=
  (mongoInit B (Machine.start s db0)).2

/-- The server state one run leaves behind on the strict server. -/
def bootstrap (errOf : Call → Err) (db0 : String) (s : Server) : Server :=
  (run (strictDb errOf) s db0).server

/-- The call of the first `try` block, as the script sends it. -/
def userCall : Call := .createUser "admin" crawlerAdmin

/-- The calls of the second `try` block in program order, on database `d`. -/
def schemaCalls (d : String) : List Call :=
  [ .createCollection d "sources",
    .createCollection d "crawled_data",
    .createCollection d "crawl_logs",
    .createIndex d { collection := "crawled_data",
                     keys := [("content", .str "text"), ("title", .str "text")], options := [] },
    .createIndex d { collection := "crawled_data",
                     keys := [("source_id", .num 1), ("timestamp", .num 1)], options := [] },
    .createIndex d { collection := "sources",
                     keys := [("url", .num 1)], options := [("unique", .bool true)] } ]

/-- Sending calls in order until one throws: the log of the calls sent, the
server state reached, and the error that stopped the sequence, if any. -/
def attempts (B : Backend) : Server → List Call → List (Call × Option Err) × Server × Option Err
  | s, [] => ([], s, none)
  | s, c :: cs =>
    match B s c with
    | .ok s1 => ((c, none) :: (attempts B s1 cs).1, (attempts B s1 cs).2)
    | .error e => ([(c, some e)], s, some e)

/-- The server state after sending `c` in state `s`: the new state when the
call succeeds, `s` itself when it throws. -/
def after (B : Backend) (s : Server) (c : Call) : Server :=
  match B s c with
  | .ok s1 => s1
  | .error _ => s

/-- Two answers of a server agree on database `d`: both succeed and leave `d`
in the same state, or both throw the same error. -/
def agreeOn (d : String) : Except Err Server → Except Err Server → Prop
  | .ok t1, .ok t2 => t1 d = t2 d
  | .error e1, .error e2 => e1 = e2
  | _, _ => False

/-! ## Auxiliary definitions for the statements -/

/-- The index requests in a call log, each with the database it was sent to. -/
def requestedIndexes (t : List (Call × Option Err)) : List (String × IndexDecl) :=
  t.filterMap (fun x =>
    match x.1 with
    | .createIndex d i => some (d, i)
    | _ => none)

/-- An error for the examples: the server's "already exists" answer. -/
def sampleErr : Call → Err := fun _ =>
  { code := .num 48, message := .str "already exists" }

/-- A server that refuses `createUser` with the duplicate signature and is
strict otherwise. -/
def dupUserDb : Backend := fun s c =>
  match c with
  | .createUser _ _ => .error { code := .num 11000, message := .str "duplicate key" }
  | _ => strictDb sampleErr s c

/-- A `web_crawler` database in which only the collection `sources` exists,
as left by a run that stopped after its first schema call. -/
def onlySources : Server :=
  effect Server.empty (.createCollection "web_crawler" "sources")

/-- Whether creating the target of the first call makes the target of the
second exist: both are the same kind of call on the same database and name the
same user, the same collection, or the same collection and key specification. -/
def hits : Call → Call → Bool
  | .createUser d doc, .createUser d2 doc2 => d == d2 && doc.user == doc2.user
  | .createCollection d n, .createCollection d2 n2 => d == d2 && n == n2
  | .createIndex d i, .createIndex d2 i2 =>
      d == d2 && i.collection == i2.collection && i.keys == i2.keys
  | _, _ => false

/-- A `web_crawler` database in which only the index on `sources` by `url`
exists. -/
def onlyUrlIndex : Server :=
  effect Server.empty (.createIndex "web_crawler"
    { collection := "sources", keys := [("url", .num 1)], options := [("unique", .bool true)] })

/-! ## The script when a call may throw any value

JavaScript lets a `throw` carry any value.  The handlers of the two `try`
blocks read `error.code` and `error.message`; such a read throws a TypeError
when `error` is `null` or `undefined`.  The embedding below repeats the script
with thrown values of every kind and with the property reads as statements. -/

namespace Raw

/-- A JavaScript value as a `throw` may carry it: `null`, a primitive
(`undefined`, a boolean, a number, a string), or an object, of which the script
reads the properties `code` and `message`. -/
inductive Value
  | null
  | prim (v : JsVal)
  | object (e : Err)
  deriving DecidableEq, Repr

/-- The values whose properties cannot be read: `null` and `undefined`. -/
def Value.isNullish : Value → Bool
  | .null => true
  | .prim .undefined => true
  | _ => false

/-- A printed argument of the first embedding as a value. -/
def ofPrintArg : PrintArg → Value
  | .val v => .prim v
  | .err e => .object e

/-- The environment of the script: what the server answers to a call, and the
TypeError object the engine throws when property `name` of a `null` or
`undefined` value `v` is read. -/
structure Shell where
  call : Server → Call → Except Value Server
  typeError : Value → String → Err

/-- The state of a shell session, as in `MongoInit.Machine`, with printed and
thrown values of every kind. -/
structure Machine where
  server : Server
  db : String
  out : List (List Value)
  trace : List (Call × Option Value)

/-- How a statement ends: normally, or by throwing a value. -/
inductive Completion (α : Type)
  | normal (a : α)
  | thrown (v : Value)
  deriving DecidableEq, Repr

/-- A shell statement. -/
def Script (α : Type) : Type := Machine → Completion α × Machine

instance : Monad Script where
  pure a := fun m => (.normal a, m)
  bind x f := fun m =>
    match x m with
    | (.normal a, m1) => f a m1
    | (.thrown v, m1) => (.thrown v, m1)

/-- The statement `try { body } catch (error) { handler }`. -/
def tryCatch (body : Script Unit) (handler : Value → Script Unit) : Script Unit := fun m =>
  match body m with
  | (.normal a, m1) => (.normal a, m1)
  | (.thrown v, m1) => handler v m1

/-- The statement `print(args...)`. -/
def print (args : List Value) : Script Unit := fun m =>
  (.normal (), { m with out := m.out ++ [args] })

/-- The statement `db = db.getSiblingDB(name)`. -/
def getSiblingDB (name : String) : Script Unit := fun m =>
  (.normal (), { m with db := name })

/-- Sending a call to the server. -/
def invoke (E : Shell) (c : Call) : Script Unit := fun m =>
  match E.call m.server c with
  | .ok s => (.normal (), { m with server := s, trace := m.trace ++ [(c, none)] })
  | .error v => (.thrown v, { m with trace := m.trace ++ [(c, some v)] })

/-- The statement `db.createUser(doc)`. -/
def createUser (E : Shell) (doc : UserDoc) : Script Unit := fun m =>
  invoke E (.createUser m.db doc) m

/-- The statement `db.createCollection(name)`. -/
def createCollection (E : Shell) (name : String) : Script Unit := fun m =>
  invoke E (.createCollection m.db name) m

/-- The statement `db.<coll>.createIndex(keys, options)`. -/
def createIndex (E : Shell) (coll : String) (keys options : List (String × JsVal)) :
    Script Unit := fun m =>
  invoke E (.createIndex m.db { collection := coll, keys := keys, options := options }) m

/-- The property read `v.name`: a TypeError on `null` and `undefined`, the
property of an object, `undefined` on any other primitive. -/
def getProperty (E : Shell) (v : Value) (name : String) (field : Err → JsVal) :
    Script JsVal := fun m =>
  if v.isNullish then (.thrown (.object (E.typeError v name)), m)
  else
    match v with
    | .object e => (.normal (field e), m)
    | _ => (.normal JsVal.undefined, m)

/-- Lines 8-30: the first `try`/`catch`. -/
def phase1 (E : Shell) : Script Unit :=
  tryCatch
    (do
      createUser E crawlerAdmin
      print (lineUserCreated.map ofPrintArg))
    (fun error => do
      let code ← getProperty E error "code" Err.code
      if code = JsVal.num 11000 then
        print (lineUserExists.map ofPrintArg)
      else
        print [.prim (.str "❌ Error creating user:"), error])

/-- Lines 36-49: the second `try`/`catch`. -/
def phase2 (E : Shell) : Script Unit :=
  tryCatch
    (do
      createCollection E "sources"
      createCollection E "crawled_data"
      createCollection E "crawl_logs"
      createIndex E "crawled_data" [("content", .str "text"), ("title", .str "text")] []
      createIndex E "crawled_data" [("source_id", .num 1), ("timestamp", .num 1)] []
      createIndex E "sources" [("url", .num 1)] [("unique", .bool true)]
      print (lineSchemaCreated.map ofPrintArg))
    (fun error => do
      let message ← getProperty E error "message" Err.message
      print ((lineSchemaMayExist message).map ofPrintArg))

/-- The whole script, lines 5-49. -/
def mongoInit (E : Shell) : Script Unit := do
  getSiblingDB "admin"
  phase1 E
  getSiblingDB "web_crawler"
  phase2 E

/-- A session that has printed nothing and called nothing yet. -/
def Machine.start (s : Server) (db0 : String) : Machine :=
  { server := s, db := db0, out := [], trace := [] }

/-- A TypeError object for the examples. -/
def sampleTypeError : Value → String → Err := fun _ _ =>
  { code := .undefined, message := .str "TypeError" }

/-- The strict server with every thrown error an error object. -/
def strictShell : Shell :=
  { call := fun s c =>
      match strictDb sampleErr s c with
      | .ok t => .ok t
      | .error e => .error (.object e)
    typeError := sampleTypeError }

/-- A server whose `createUser` throws `null` and which is strict otherwise. -/
def nullUserShell : Shell :=
  { call := fun s c =>
      match c with
      | .createUser _ _ => .error .null
      | _ => strictShell.call s c
    typeError := sampleTypeError }

/-- A server whose `createCollection` throws `undefined` and which is strict
otherwise. -/
def undefinedSchemaShell : Shell :=
  { call := fun s c =>
      match c with
      | .createCollection _ _ => .error (.prim .undefined)
      | _ => strictShell.call s c
    typeError := sampleTypeError }

/-- A server of the first embedding as an environment: its errors are thrown
as objects. -/
def ofBackend (B : Backend) (te : Value → String → Err) : Shell :=
  { call := fun s c =>
      match B s c with
      | .ok t => .ok t
      | .error e => .error (.object e)
    typeError := te }

/-- A session of the first embedding as a session of this one. -/
def ofMachine (m : MongoInit.Machine) : Machine :=
  { server := m.server
    db := m.db
    out := m.out.map (fun l => l.map ofPrintArg)
    trace := m.trace.map (fun x => (x.1, x.2.map Value.object)) }

end Raw

/-! ## The script in closed form -/

/-- The first `try`/`catch` always completes; its effect on the session. -/
theorem phase1_eq (B : Backend) (m : Machine) :
    phase1 B m = (.normal (),
      match B m.server (.createUser m.db crawlerAdmin) with
      | .ok s => { m with server := s,
                          trace := m.trace ++ [(.createUser m.db crawlerAdmin, none)],
                          out := m.out ++ [lineUserCreated] }
      | .error e => { m with trace := m.trace ++ [(.createUser m.db crawlerAdmin, some e)],
                             out := m.out ++ [if e.code = JsVal.num 11000 then lineUserExists
                                              else lineUserError e] }) := by
  simp only [phase1, tryCatch, bind, createUser, invoke, print]
  cases h : B m.server (.createUser m.db crawlerAdmin) with
  | ok s => rfl
  | error e =>
    by_cases hc : e.code = JsVal.num 11000
    · simp [hc, print]
    · simp [hc, print]

/-- The second `try`/`catch` always completes; its effect on the session is
that of sending the six schema calls until one throws. -/
theorem phase2_eq (B : Backend) (m : Machine) :
    phase2 B m = (.normal (),
      { m with server := (attempts B m.server (schemaCalls m.db)).2.1,
               trace := m.trace ++ (attempts B m.server (schemaCalls m.db)).1,
               out := m.out ++ [match (attempts B m.server (schemaCalls m.db)).2.2 with
                                | none => lineSchemaCreated
                                | some e => lineSchemaMayExist e.message] }) := by
  simp only [phase2, tryCatch, bind, createCollection, createIndex, invoke, print, schemaCalls,
    attempts]
  cases h1 : B m.server (.createCollection m.db "sources") with
  | error e => simp
  | ok s1 =>
    simp only []
    cases h2 : B s1 (.createCollection m.db "crawled_data") with
    | error e => simp
    | ok s2 =>
      simp only []
      cases h3 : B s2 (.createCollection m.db "crawl_logs") with
      | error e => simp
      | ok s3 =>
        simp only []
        cases h4 : B s3 (.createIndex m.db
            ⟨"crawled_data", [("content", .str "text"), ("title", .str "text")], []⟩) with
        | error e => simp
        | ok s4 =>
          simp only []
          cases h5 : B s4 (.createIndex m.db
              ⟨"crawled_data", [("source_id", .num 1), ("timestamp", .num 1)], []⟩) with
          | error e => simp
          | ok s5 =>
            simp only []
            cases h6 : B s5 (.createIndex m.db
                ⟨"sources", [("url", .num 1)], [("unique", .bool true)]⟩) with
            | error e => simp
            | ok s6 => simp

/-- The session after one run, in closed form. -/
theorem run_eq (B : Backend) (s : Server) (db0 : String) :
    run B s db0 =
      { server := (attempts B (after B s userCall) (schemaCalls "web_crawler")).2.1,
        db := "web_crawler",
        out := [match B s userCall with
                | .ok _ => lineUserCreated
                | .error e => if e.code = JsVal.num 11000 then lineUserExists
                              else lineUserError e,
                match (attempts B (after B s userCall) (schemaCalls "web_crawler")).2.2 with
                | none => lineSchemaCreated
                | some e => lineSchemaMayExist e.message],
        trace := (userCall, match B s userCall with
                            | .ok _ => none
                            | .error e => some e)
                 :: (attempts B (after B s userCall) (schemaCalls "web_crawler")).1 } := by
  simp only [run, mongoInit, bind, getSiblingDB, Machine.start, phase1_eq, phase2_eq, after,
    userCall]
  cases h : B s (.createUser "admin" crawlerAdmin) <;> simp

/-! ## Sequences of calls -/

/-- The log of a call sequence: every call succeeded, or the calls before the
first one that threw succeeded and that call ends the log. -/
theorem attempts_log (B : Backend) (cs : List Call) (s : Server) :
    ((attempts B s cs).2.2 = none ∧ (attempts B s cs).1 = cs.map (fun c => (c, none))) ∨
    (∃ k c e, cs[k]? = some c ∧ (attempts B s cs).2.2 = some e ∧
      (attempts B s cs).1 = (cs.take k).map (fun c => (c, none)) ++ [(c, some e)]) := by
  induction cs generalizing s with
  | nil => left; simp [attempts]
  | cons c cs ih =>
    cases h : B s c with
    | error e =>
      right
      exact ⟨0, c, e, by simp, by simp [attempts, h], by simp [attempts, h]⟩
    | ok s1 =>
      rcases ih s1 with ⟨h1, h2⟩ | ⟨k, c1, e, hk, h1, h2⟩
      · left
        simp [attempts, h, h1, h2]
      · right
        exact ⟨k + 1, c1, e, by simpa using hk, by simp [attempts, h, h1], by
          simp [attempts, h, h2]⟩

/-- The state a call sequence reaches is the result of the calls in its log. -/
theorem attempts_server (B : Backend) (cs : List Call) (s : Server) :
    (attempts B s cs).2.1 = ((attempts B s cs).1.map Prod.fst).foldl (after B) s := by
  induction cs generalizing s with
  | nil => simp [attempts]
  | cons c cs ih =>
    cases h : B s c with
    | error e => simp [attempts, h, after]
    | ok s1 => simp [attempts, h, after, ih s1]

/-- Two servers that answer the calls of `cs` alike on database `d` produce
the same log, the same state of `d` and the same final error. -/
theorem attempts_congr (B1 B2 : Backend) (d : String) (cs : List Call)
    (h : ∀ t1 t2 c, c ∈ cs → t1 d = t2 d → agreeOn d (B1 t1 c) (B2 t2 c))
    (s1 s2 : Server) (hs : s1 d = s2 d) :
    (attempts B1 s1 cs).1 = (attempts B2 s2 cs).1 ∧
    (attempts B1 s1 cs).2.1 d = (attempts B2 s2 cs).2.1 d ∧
    (attempts B1 s1 cs).2.2 = (attempts B2 s2 cs).2.2 := by
  induction cs generalizing s1 s2 with
  | nil => simp [attempts, hs]
  | cons c cs ih =>
    have hc := h s1 s2 c (by simp) hs
    cases h1 : B1 s1 c with
    | error e1 =>
      cases h2 : B2 s2 c with
      | error e2 =>
        rw [h1, h2] at hc
        simp only [agreeOn] at hc
        simp [attempts, h1, h2, hc, hs]
      | ok t2 => rw [h1, h2] at hc; exact hc.elim
    | ok t1 =>
      cases h2 : B2 s2 c with
      | error e2 => rw [h1, h2] at hc; exact hc.elim
      | ok t2 =>
        rw [h1, h2] at hc
        simp only [agreeOn] at hc
        have := ih (fun a b x hx hab => h a b x (by simp [hx]) hab) t1 t2 hc
        simp [attempts, h1, h2, this]

/-! ## The strict server -/

/-- The strict server answers a call from the state of the call's database alone. -/
theorem strictDb_agree (errOf : Call → Err) (d : String) (t1 t2 : Server) (c : Call)
    (hc : c.db = d) (h : t1 d = t2 d) :
    agreeOn d (strictDb errOf t1 c) (strictDb errOf t2 c) := by
  cases c <;> simp only [Call.db] at hc <;> subst hc <;>
    simp only [strictDb, targetExists, h] <;> split <;>
    simp [agreeOn, effect, h]

/-- Every schema call goes to the selected database. -/
theorem schemaCalls_db (d : String) (c : Call) (hc : c ∈ schemaCalls d) : c.db = d := by
  simp only [schemaCalls, List.mem_cons, List.mem_singleton, List.not_mem_nil, or_false] at hc
  rcases hc with h | h | h | h | h | h <;> subst h <;> rfl

/-- A run on the strict server changes nothing once the user and the first
collection exist: both `try` blocks stop at their first call. -/
theorem bootstrap_fixed (errOf : Call → Err) (db0 : String) (s : Server)
    (h1 : targetExists s userCall = true)
    (h2 : targetExists s (.createCollection "web_crawler" "sources") = true) :
    bootstrap errOf db0 s = s := by
  have ha : after (strictDb errOf) s userCall = s := by simp [after, strictDb, h1]
  simp [bootstrap, run_eq, ha, schemaCalls, attempts, strictDb, h2]

/-- The strict server throws exactly when the target of the call exists. -/
theorem strictDb_throws_iff (errOf : Call → Err) (s : Server) (c : Call) :
    (∃ e, strictDb errOf s c = .error e) ↔ targetExists s c = true := by
  unfold strictDb
  by_cases h : targetExists s c = true <;> simp [h]

/-- On the strict server `createUser` leaves `web_crawler` as it was. -/
theorem after_userCall_web (errOf : Call → Err) (s : Server) :
    after (strictDb errOf) s userCall "web_crawler" = s "web_crawler" := by
  unfold after strictDb
  by_cases h : targetExists s userCall = true
  · simp [h]
  · simp only [h]
    rfl

/-- On the strict server, when none of the six schema targets exists, the six
calls all succeed and add their targets to `web_crawler`. -/
theorem strict_clean (errOf : Call → Err) (s : Server)
    (h : ∀ c ∈ schemaCalls "web_crawler", targetExists s c = false) :
    (attempts (strictDb errOf) s (schemaCalls "web_crawler")).2.1 "web_crawler" =
      { users := (s "web_crawler").users,
        collections := (s "web_crawler").collections ++ ["sources", "crawled_data", "crawl_logs"],
        indexes := (s "web_crawler").indexes ++
          [ ⟨"crawled_data", [("content", .str "text"), ("title", .str "text")], []⟩,
            ⟨"crawled_data", [("source_id", .num 1), ("timestamp", .num 1)], []⟩,
            ⟨"sources", [("url", .num 1)], [("unique", .bool true)]⟩ ] } := by
  simp [schemaCalls, targetExists] at h
  obtain ⟨h1, h2, h3, h4, h5, h6⟩ := h
  have g4 : ¬ ∃ x ∈ (s "web_crawler").indexes, x.collection = "crawled_data" ∧
      x.keys = [("content", JsVal.str "text"), ("title", JsVal.str "text")] := by
    rintro ⟨x, hx, a, b⟩; exact h4 x hx a b
  have g5 : ¬ ∃ x ∈ (s "web_crawler").indexes, x.collection = "crawled_data" ∧
      x.keys = [("source_id", JsVal.num 1), ("timestamp", JsVal.num 1)] := by
    rintro ⟨x, hx, a, b⟩; exact h5 x hx a b
  have g6 : ¬ ∃ x ∈ (s "web_crawler").indexes, x.collection = "sources" ∧
      x.keys = [("url", JsVal.num 1)] := by
    rintro ⟨x, hx, a, b⟩; exact h6 x hx a b
  simp [schemaCalls, attempts, strictDb, targetExists, effect, h1, h2, h3, g4, g5, g6,
    or_and_right, exists_or]

/-- Whether a target exists depends on the call's database only. -/
theorem targetExists_congr (s1 s2 : Server) (c : Call) (h : s1 c.db = s2 c.db) :
    targetExists s1 c = targetExists s2 c := by
  cases c <;> simp only [Call.db] at h <;> simp only [targetExists, h]

/-- After a run on the fresh instance the user exists. -/
theorem bootstrap_empty_user (errOf : Call → Err) (db0 : String) :
    targetExists (bootstrap errOf db0 Server.empty) userCall = true := by rfl

/-- After a run on the fresh instance the collection `sources` exists. -/
theorem bootstrap_empty_sources (errOf : Call → Err) (db0 : String) :
    targetExists (bootstrap errOf db0 Server.empty)
      (.createCollection "web_crawler" "sources") = true := by rfl

/-- When every thrown value is an error object the script completes normally
from every session state. -/
theorem mongoInit_completes (B : Backend) (m : Machine) :
    (mongoInit B m).1 = Completion.normal () := by
  simp only [mongoInit, bind, getSiblingDB, phase1_eq, phase2_eq]

/-! ## Creation on the strict server -/

theorem targetExists_effect (s : Server) (c x : Call) :
    targetExists (effect s c) x = (targetExists s x || hits c x) := by
  cases c with
  | createUser d doc =>
    cases x with
    | createUser d2 doc2 =>
      by_cases h : d2 = d
      · subst h; simp [effect, targetExists, hits]
      · have h2 : ¬ d = d2 := fun e => h e.symm
        simp [effect, targetExists, hits, Function.update_noteq h, h2]
    | createCollection d2 n2 =>
      by_cases h : d2 = d
      · subst h; simp [effect, targetExists, hits]
      · simp [effect, targetExists, hits, Function.update_noteq h]
    | createIndex d2 i2 =>
      by_cases h : d2 = d
      · subst h; simp [effect, targetExists, hits]
      · simp [effect, targetExists, hits, Function.update_noteq h]
  | createCollection d n =>
    cases x with
    | createUser d2 doc2 =>
      by_cases h : d2 = d
      · subst h; simp [effect, targetExists, hits]
      · simp [effect, targetExists, hits, Function.update_noteq h]
    | createCollection d2 n2 =>
      by_cases h : d2 = d
      · subst h
        have hn2 : (n == n2) = decide (n2 = n) := by
          by_cases hn : n = n2
          · subst hn; simp
          · have : ¬ n2 = n := fun e => hn e.symm
            simp [hn, this]
        simp [effect, targetExists, hits, hn2]
      · have h2 : ¬ d = d2 := fun e => h e.symm
        simp [effect, targetExists, hits, Function.update_noteq h, h2]
    | createIndex d2 i2 =>
      by_cases h : d2 = d
      · subst h; simp [effect, targetExists, hits]
      · simp [effect, targetExists, hits, Function.update_noteq h]
  | createIndex d i =>
    cases x with
    | createUser d2 doc2 =>
      by_cases h : d2 = d
      · subst h; simp [effect, targetExists, hits]
      · simp [effect, targetExists, hits, Function.update_noteq h]
    | createCollection d2 n2 =>
      by_cases h : d2 = d
      · subst h; simp [effect, targetExists, hits]
      · simp [effect, targetExists, hits, Function.update_noteq h]
    | createIndex d2 i2 =>
      by_cases h : d2 = d
      · subst h; simp [effect, targetExists, hits]
      · have h2 : ¬ d = d2 := fun e => h e.symm
        simp [effect, targetExists, hits, Function.update_noteq h, h2]

theorem hits_self (c : Call) : hits c c = true := by
  cases c <;> simp [hits]

theorem targetExists_foldl (l : List Call) (s : Server) (x : Call) :
    targetExists (l.foldl effect s) x = (targetExists s x || l.any (fun c => hits c x)) := by
  induction l generalizing s with
  | nil => simp
  | cons c l ih =>
    simp only [List.foldl_cons, List.any_cons, ih, targetExists_effect, Bool.or_assoc]

theorem effect_congr (s1 s2 : Server) (c : Call) (d : String) (h : s1 d = s2 d) :
    (effect s1 c) d = (effect s2 c) d := by
  cases c with
  | createUser d2 doc =>
    by_cases e : d = d2
    · subst e; simp [effect, h]
    · simp [effect, Function.update_noteq e, h]
  | createCollection d2 n =>
    by_cases e : d = d2
    · subst e; simp [effect, h]
    · simp [effect, Function.update_noteq e, h]
  | createIndex d2 i =>
    by_cases e : d = d2
    · subst e; simp [effect, h]
    · simp [effect, Function.update_noteq e, h]

theorem foldl_effect_congr (l : List Call) (s1 s2 : Server) (d : String) (h : s1 d = s2 d) :
    (l.foldl effect s1) d = (l.foldl effect s2) d := by
  induction l generalizing s1 s2 with
  | nil => simpa using h
  | cons c l ih => exact ih _ _ (effect_congr s1 s2 c d h)

theorem takeWhile_agree (p q : Call → Bool) (l : List Call) (h : ∀ x ∈ l, p x = q x) :
    l.takeWhile p = l.takeWhile q := by
  induction l with
  | nil => rfl
  | cons c l ih =>
    have hc := h c (by simp)
    have hl := ih (fun x hx => h x (by simp [hx]))
    simp only [List.takeWhile_cons, hc, hl]

/-- On the strict server a sequence of calls with pairwise different targets
creates exactly the targets of the calls before the first one whose target
already exists. -/
theorem strict_attempts (errOf : Call → Err) (cs : List Call) (s : Server)
    (hp : cs.Pairwise (fun a b => hits a b = false)) :
    (attempts (strictDb errOf) s cs).2.1 =
      (cs.takeWhile (fun c => !targetExists s c)).foldl effect s := by
  induction cs generalizing s with
  | nil => rfl
  | cons c cs ih =>
    rw [List.pairwise_cons] at hp
    by_cases h : targetExists s c = true
    · simp [attempts, strictDb, h]
    · have hf : targetExists s c = false := by simpa using h
      have hq : cs.takeWhile (fun x => !targetExists (effect s c) x) =
          cs.takeWhile (fun x => !targetExists s x) := by
        apply takeWhile_agree
        intro x hx
        simp [targetExists_effect, hp.1 x hx]
      simp [attempts, strictDb, hf, ih (effect s c) hp.2, hq]

theorem schemaCalls_pairwise (d : String) :
    (schemaCalls d).Pairwise (fun a b => hits a b = false) := by
  simp [schemaCalls, hits]

/-- On the strict server the state of `web_crawler` after a run is its initial
state with the targets of the leading schema calls whose targets were absent
added in call order. -/
theorem bootstrap_web (errOf : Call → Err) (db0 : String) (s : Server) :
    (bootstrap errOf db0 s) "web_crawler" =
      (((schemaCalls "web_crawler").takeWhile (fun c => !targetExists s c)).foldl effect s)
        "web_crawler" := by
  have hw := after_userCall_web errOf s
  have hb : bootstrap errOf db0 s =
      (attempts (strictDb errOf) (after (strictDb errOf) s userCall)
        (schemaCalls "web_crawler")).2.1 := by
    simp [bootstrap, run_eq]
  rw [hb, strict_attempts errOf _ _ (schemaCalls_pairwise _)]
  have hq : (schemaCalls "web_crawler").takeWhile
        (fun c => !targetExists (after (strictDb errOf) s userCall) c) =
      (schemaCalls "web_crawler").takeWhile (fun c => !targetExists s c) := by
    apply takeWhile_agree
    intro c hc
    rw [targetExists_congr _ s c (by rw [schemaCalls_db _ c hc]; exact hw)]
  rw [hq]
  exact foldl_effect_congr _ _ _ _ hw

/-! ## Thrown values of every kind -/

namespace Raw

/-- A property read of a value other than `null` and `undefined` completes
normally and leaves the session as it was. -/
theorem getProperty_normal (E : Shell) (v : Value) (name : String) (field : Err → JsVal)
    (m : Machine) (h : v.isNullish = false) :
    ∃ a, getProperty E v name field m = (.normal a, m) := by
  unfold getProperty
  simp only [h, Bool.false_eq_true, if_false]
  cases v with
  | object e => exact ⟨_, rfl⟩
  | null => exact ⟨_, rfl⟩
  | prim p => exact ⟨_, rfl⟩

/-- The first `try`/`catch` completes normally when the value `createUser`
throws, if any, is not `null` or `undefined`; it leaves `db` as it was. -/
theorem phase1_normal (E : Shell) (m : Machine)
    (h : ∀ v, E.call m.server (.createUser m.db crawlerAdmin) = .error v →
      v.isNullish = false) :
    (phase1 E m).1 = .normal () := by
  simp only [phase1, tryCatch, bind, createUser, invoke, print]
  cases hc : E.call m.server (.createUser m.db crawlerAdmin) with
  | ok s => rfl
  | error v =>
    obtain ⟨a, ha⟩ := getProperty_normal E v "code" Err.code
      { m with trace := m.trace ++ [(.createUser m.db crawlerAdmin, some v)] } (h v hc)
    simp only [ha]
    by_cases hk : a = JsVal.num 11000 <;> simp [hk, print]

/-- The handler of the second `try`/`catch` completes normally on a value
other than `null` and `undefined`. -/
theorem handler2_normal (E : Shell) (v : Value) (m : Machine) (h : v.isNullish = false) :
    ((do
        let message ← getProperty E v "message" Err.message
        print ((lineSchemaMayExist message).map ofPrintArg) : Script Unit) m).1 =
      .normal () := by
  obtain ⟨a, ha⟩ := getProperty_normal E v "message" Err.message m h
  simp only [bind, ha, print]

/-- The second `try`/`catch` completes normally when no schema call throws
`null` or `undefined`. -/
theorem phase2_normal (E : Shell) (m : Machine)
    (h : ∀ s c v, c ∈ schemaCalls m.db → E.call s c = .error v → v.isNullish = false) :
    (phase2 E m).1 = .normal () := by
  have g := fun s c v (hc : c ∈ schemaCalls m.db) => h s c v hc
  simp only [phase2, tryCatch, bind, createCollection, createIndex, invoke]
  cases h1 : E.call m.server (.createCollection m.db "sources") with
  | error v => exact handler2_normal E v _ (g m.server _ v (by simp [schemaCalls]) h1)
  | ok s1 =>
    try simp only []
    cases h2 : E.call s1 (.createCollection m.db "crawled_data") with
    | error v => exact handler2_normal E v _ (g s1 _ v (by simp [schemaCalls]) h2)
    | ok s2 =>
      try simp only []
      cases h3 : E.call s2 (.createCollection m.db "crawl_logs") with
      | error v => exact handler2_normal E v _ (g s2 _ v (by simp [schemaCalls]) h3)
      | ok s3 =>
        try simp only []
        cases h4 : E.call s3 (.createIndex m.db
            ⟨"crawled_data", [("content", .str "text"), ("title", .str "text")], []⟩) with
        | error v =>
          exact handler2_normal E v _
            (g s3 _ v (by simp [schemaCalls]) h4)
        | ok s4 =>
          try simp only []
          cases h5 : E.call s4 (.createIndex m.db
              ⟨"crawled_data", [("source_id", .num 1), ("timestamp", .num 1)], []⟩) with
          | error v =>
            exact handler2_normal E v _
              (g s4 _ v (by simp [schemaCalls]) h5)
          | ok s5 =>
            try simp only []
            cases h6 : E.call s5 (.createIndex m.db
                ⟨"sources", [("url", .num 1)], [("unique", .bool true)]⟩) with
            | error v =>
              exact handler2_normal E v _
                (g s5 _ v (by simp [schemaCalls]) h6)
            | ok s6 => rfl

theorem phase1_ofBackend (B : Backend) (te : Value → String → Err) (m : MongoInit.Machine) :
    phase1 (ofBackend B te) (ofMachine m) = (.normal (), ofMachine (MongoInit.phase1 B m).2) := by
  rw [phase1_eq]
  simp only [phase1, tryCatch, bind, createUser, invoke, print, ofBackend, ofMachine]
  cases h : B m.server (.createUser m.db crawlerAdmin) with
  | ok s => simp
  | error e =>
    by_cases hc : e.code = JsVal.num 11000
    · simp [getProperty, Value.isNullish, hc, print]
    · simp [getProperty, Value.isNullish, hc, print, lineUserError, ofPrintArg]

theorem phase2_ofBackend (B : Backend) (te : Value → String → Err) (m : MongoInit.Machine) :
    phase2 (ofBackend B te) (ofMachine m) = (.normal (), ofMachine (MongoInit.phase2 B m).2) := by
  rw [phase2_eq]
  simp only [phase2, tryCatch, bind, createCollection, createIndex, invoke, print, ofBackend,
    ofMachine, schemaCalls, attempts]
  cases h1 : B m.server (.createCollection m.db "sources") with
  | error e => simp [getProperty, Value.isNullish, print]
  | ok s1 =>
    simp only []
    cases h2 : B s1 (.createCollection m.db "crawled_data") with
    | error e => simp [getProperty, Value.isNullish, print]
    | ok s2 =>
      simp only []
      cases h3 : B s2 (.createCollection m.db "crawl_logs") with
      | error e => simp [getProperty, Value.isNullish, print]
      | ok s3 =>
        simp only []
        cases h4 : B s3 (.createIndex m.db
            ⟨"crawled_data", [("content", .str "text"), ("title", .str "text")], []⟩) with
        | error e => simp [getProperty, Value.isNullish, print]
        | ok s4 =>
          simp only []
          cases h5 : B s4 (.createIndex m.db
              ⟨"crawled_data", [("source_id", .num 1), ("timestamp", .num 1)], []⟩) with
          | error e => simp [getProperty, Value.isNullish, print]
          | ok s5 =>
            simp only []
            cases h6 : B s5 (.createIndex m.db
                ⟨"sources", [("url", .num 1)], [("unique", .bool true)]⟩) with
            | error e => simp [getProperty, Value.isNullish, print]
            | ok s6 => simp

/-- When every thrown value is an error object, this embedding and the first
one run the script alike: the same completion, server, selected database,
printed lines and call log. -/
theorem mongoInit_ofBackend (B : Backend) (te : Value → String → Err)
    (m : MongoInit.Machine) :
    mongoInit (ofBackend B te) (ofMachine m) =
      (.normal (), ofMachine (MongoInit.mongoInit B m).2) := by
  have e1 : ∀ (m : MongoInit.Machine) (d : String),
      ({ ofMachine m with db := d } : Machine) = ofMachine { m with db := d } := fun _ _ => rfl
  simp only [mongoInit, MongoInit.mongoInit, bind, getSiblingDB, MongoInit.getSiblingDB, e1,
    phase1_ofBackend, phase2_ofBackend]
  simp only [phase1_eq, phase2_eq]

end Raw

/-! ## The claims -/

/-- C1: on the strict server, running the script a second time on the state
left by a first run from the fresh instance changes nothing: the server state
after two runs is the state after one, and the user registry, the collections
and the indexes hold no duplicate. -/
theorem bootstrap_idempotent (errOf errOf2 : Call → Err) (db0 db1 : String) :
    bootstrap errOf2 db1 (bootstrap errOf db0 Server.empty) = bootstrap errOf db0 Server.empty ∧
    ((bootstrap errOf2 db1 (bootstrap errOf db0 Server.empty)) "admin").users.Nodup ∧
    ((bootstrap errOf2 db1 (bootstrap errOf db0 Server.empty)) "web_crawler").collections.Nodup ∧
    ((bootstrap errOf2 db1 (bootstrap errOf db0 Server.empty)) "web_crawler").indexes.Nodup := by
  have h := bootstrap_fixed errOf2 db1 _ (bootstrap_empty_user errOf db0)
    (bootstrap_empty_sources errOf db0)
  rw [h]
  refine ⟨rfl, ?_, ?_, ?_⟩
  · have : (bootstrap errOf db0 Server.empty "admin").users = [crawlerAdmin] := rfl
    rw [this]; simp
  · have : (bootstrap errOf db0 Server.empty "web_crawler").collections =
        ["sources", "crawled_data", "crawl_logs"] := rfl
    rw [this]; decide
  · have : (bootstrap errOf db0 Server.empty "web_crawler").indexes =
        [ ⟨"crawled_data", [("content", .str "text"), ("title", .str "text")], []⟩,
          ⟨"crawled_data", [("source_id", .num 1), ("timestamp", .num 1)], []⟩,
          ⟨"sources", [("url", .num 1)], [("unique", .bool true)]⟩ ] := rfl
    rw [this]; decide

/-- C2 as stated fails: from the state in which only `sources` exists, a run
on the strict server stops at its first schema call; `crawled_data` and
`crawl_logs` are still missing afterwards and no index exists. -/
theorem retried_run_incomplete :
    targetExists onlySources (.createCollection "web_crawler" "sources") = true ∧
    (bootstrap sampleErr "test" onlySources) "web_crawler" = onlySources "web_crawler" ∧
    targetExists (bootstrap sampleErr "test" onlySources)
      (.createCollection "web_crawler" "crawled_data") = false ∧
    ¬ (∀ c ∈ schemaCalls "web_crawler",
        targetExists (bootstrap sampleErr "test" onlySources) c = true) := by
  decide

/-- C2, amended: on the strict server, for every initial state, (1) after a
run `web_crawler` is its initial state with the targets of the leading schema
calls whose targets were absent (the calls before the first one whose target
already exists) added in call order; (2) all six schema targets exist after
the run if and only if, in the initial state, the target of every schema call
from the first already-existing one onward existed; (3) from every state in
which none of the six targets exists, all six exist afterwards, added after
what the database already held; (4) from every state in which `sources`
already exists the run leaves `web_crawler` exactly as it was. -/
theorem schema_provisioning (errOf : Call → Err) (db0 : String) (s : Server) :
    (bootstrap errOf db0 s) "web_crawler" =
      (((schemaCalls "web_crawler").takeWhile (fun c => !targetExists s c)).foldl effect s)
        "web_crawler" ∧
    ((∀ c ∈ schemaCalls "web_crawler", targetExists (bootstrap errOf db0 s) c = true) ↔
      ∀ c ∈ (schemaCalls "web_crawler").dropWhile (fun c => !targetExists s c),
        targetExists s c = true) ∧
    ((∀ c ∈ schemaCalls "web_crawler", targetExists s c = false) →
      (∀ c ∈ schemaCalls "web_crawler", targetExists (bootstrap errOf db0 s) c = true) ∧
      (bootstrap errOf db0 s) "web_crawler" =
        { users := (s "web_crawler").users,
          collections := (s "web_crawler").collections ++
            ["sources", "crawled_data", "crawl_logs"],
          indexes := (s "web_crawler").indexes ++
            [ { collection := "crawled_data",
                keys := [("content", .str "text"), ("title", .str "text")], options := [] },
              { collection := "crawled_data",
                keys := [("source_id", .num 1), ("timestamp", .num 1)], options := [] },
              { collection := "sources",
                keys := [("url", .num 1)], options := [("unique", .bool true)] } ] }) ∧
    (targetExists s (.createCollection "web_crawler" "sources") = true →
      (bootstrap errOf db0 s) "web_crawler" = s "web_crawler") := by
  have hw := after_userCall_web errOf s
  have hweb := bootstrap_web errOf db0 s
  have hex : ∀ c ∈ schemaCalls "web_crawler",
      targetExists (bootstrap errOf db0 s) c =
        (targetExists s c ||
          ((schemaCalls "web_crawler").takeWhile (fun c => !targetExists s c)).any
            (fun a => hits a c)) := by
    intro c hc
    have hd : c.db = "web_crawler" := schemaCalls_db _ c hc
    rw [targetExists_congr (bootstrap errOf db0 s)
      (((schemaCalls "web_crawler").takeWhile (fun c => !targetExists s c)).foldl effect s) c
      (by rw [hd]; exact hweb), targetExists_foldl]
  have hsplit := List.takeWhile_append_dropWhile (fun c => !targetExists s c)
    (schemaCalls "web_crawler")
  have hpw := schemaCalls_pairwise "web_crawler"
  rw [← hsplit, List.pairwise_append] at hpw
  refine ⟨hweb, ⟨?_, ?_⟩, ?_, ?_⟩
  · intro h c hc
    have hmem : c ∈ schemaCalls "web_crawler" := by
      rw [← hsplit]; exact List.mem_append_right _ hc
    have h1 := h c hmem
    rw [hex c hmem] at h1
    have h2 : ((schemaCalls "web_crawler").takeWhile (fun c => !targetExists s c)).any
        (fun a => hits a c) = false := by
      rw [List.any_eq_false]
      intro a ha
      simp [hpw.2.2 a ha c hc]
    simpa [h2] using h1
  · intro h c hc
    rw [hex c hc]
    have hc2 := hc
    rw [← hsplit, List.mem_append] at hc2
    rcases hc2 with h1 | h1
    · have : ((schemaCalls "web_crawler").takeWhile (fun c => !targetExists s c)).any
          (fun a => hits a c) = true := by
        rw [List.any_eq_true]
        exact ⟨c, h1, hits_self c⟩
      simp [this]
    · simp [h c h1]
  · intro h
    have h' : ∀ c ∈ schemaCalls "web_crawler",
        targetExists (after (strictDb errOf) s userCall) c = false := by
      intro c hc
      rw [targetExists_congr _ s c (by rw [schemaCalls_db _ c hc]; exact hw)]
      exact h c hc
    have key := strict_clean errOf _ h'
    rw [hw] at key
    have hb : bootstrap errOf db0 s =
        (attempts (strictDb errOf) (after (strictDb errOf) s userCall)
          (schemaCalls "web_crawler")).2.1 := by
      simp [bootstrap, run_eq]
    rw [hb]
    refine ⟨?_, key⟩
    intro c hc
    simp only [schemaCalls, List.mem_cons, List.mem_singleton, List.not_mem_nil, or_false] at hc
    rcases hc with h | h | h | h | h | h <;> subst h <;> simp [targetExists, key]
  · intro h
    have h' : targetExists (after (strictDb errOf) s userCall)
        (.createCollection "web_crawler" "sources") = true := by
      rw [targetExists_congr _ s _ hw]; exact h
    simp [bootstrap, run_eq, schemaCalls, attempts, strictDb, h', hw]

/-- C2, amended, at the fresh instance, at the state holding only `sources`
and at the state holding only the index on `sources` by `url`. -/
theorem schema_provisioning_witness :
    (∀ c ∈ schemaCalls "web_crawler",
      targetExists (bootstrap sampleErr "test" Server.empty) c = true) ∧
    (bootstrap sampleErr "test" onlySources) "web_crawler" = onlySources "web_crawler" ∧
    (∀ c ∈ schemaCalls "web_crawler",
      targetExists (bootstrap sampleErr "test" onlyUrlIndex) c = true) :=
  ⟨((schema_provisioning sampleErr "test" Server.empty).2.2.1 (by decide)).1,
   (schema_provisioning sampleErr "test" onlySources).2.2.2 (by decide),
   (schema_provisioning sampleErr "test" onlyUrlIndex).2.1.2 (by decide)⟩

/-- C3 as stated fails: after a run on the fresh instance `web_crawler` holds
three indexes, not four. -/
theorem fresh_run_index_count :
    ((bootstrap sampleErr "test" Server.empty) "web_crawler").indexes.length = 3 ∧
    ¬ ((bootstrap sampleErr "test" Server.empty) "web_crawler").indexes.length = 4 := by
  decide

/-- C3, amended: a run on the fresh instance of the strict server sends seven
calls and all succeed; afterwards the registry of `admin` holds exactly the
user `crawler_admin`, and `web_crawler` holds exactly the collections
`sources`, `crawled_data`, `crawl_logs` and exactly the three indexes the
script declares. -/
theorem fresh_run_state (errOf : Call → Err) (db0 : String) :
    (run (strictDb errOf) Server.empty db0).trace =
      (userCall :: schemaCalls "web_crawler").map (fun c => (c, none)) ∧
    (bootstrap errOf db0 Server.empty) "admin" =
      { users := [crawlerAdmin], collections := [], indexes := [] } ∧
    (bootstrap errOf db0 Server.empty) "web_crawler" =
      { users := [],
        collections := ["sources", "crawled_data", "crawl_logs"],
        indexes :=
          [ { collection := "crawled_data",
              keys := [("content", .str "text"), ("title", .str "text")], options := [] },
            { collection := "crawled_data",
              keys := [("source_id", .num 1), ("timestamp", .num 1)], options := [] },
            { collection := "sources",
              keys := [("url", .num 1)], options := [("unique", .bool true)] } ] } :=
  ⟨rfl, rfl, rfl⟩

/-- C4: after a bootstrap of the fresh instance and any number `n` of further
runs on the strict server, the registry of `admin` holds exactly one user,
`crawler_admin`, whose grants are exactly `readWrite` on `web_crawler` and
`dbAdmin` on `web_crawler`. -/
theorem grant_set_invariant (errOf : Call → Err) (db0 : String) (n : Nat) :
    ((Nat.iterate (bootstrap errOf db0) (n + 1) Server.empty) "admin").users.map
        (fun u => (u.user, u.roles)) =
      [("crawler_admin", [ { role := "readWrite", db := "web_crawler" },
                           { role := "dbAdmin", db := "web_crawler" } ])] := by
  have h : Nat.iterate (bootstrap errOf db0) (n + 1) Server.empty =
      bootstrap errOf db0 Server.empty := by
    induction n with
    | zero => rfl
    | succ k ih =>
      rw [Function.iterate_succ_apply', ih]
      exact bootstrap_fixed errOf db0 _ (bootstrap_empty_user errOf db0)
        (bootstrap_empty_sources errOf db0)
  rw [h]
  rfl

namespace Raw

/-- C5 as stated fails: when `createUser` throws `null`, the handler's read of
`error.code` throws a TypeError that nothing catches; the run ends by that
throw after its first call, with nothing printed and Phase 2 never entered.
The same happens in Phase 2 when `createCollection` throws `undefined`. -/
theorem aborts_on_thrown_null :
    (mongoInit nullUserShell (Machine.start Server.empty "test")).1 =
      .thrown (.object (sampleTypeError .null "code")) ∧
    ¬ (mongoInit nullUserShell (Machine.start Server.empty "test")).1 = .normal () ∧
    (mongoInit nullUserShell (Machine.start Server.empty "test")).2.out = [] ∧
    (mongoInit nullUserShell (Machine.start Server.empty "test")).2.trace =
      [(userCall, some .null)] ∧
    ¬ (mongoInit undefinedSchemaShell (Machine.start Server.empty "test")).1 = .normal () := by
  decide

/-- C5, amended: whatever the server answers to each of the seven calls,
success or a thrown value other than `null` and `undefined` (an error object
with any or no code and message, a boolean, a number or a string), the script
completes normally from every session state: no error propagates out of it. -/
theorem no_failure_is_fatal (E : Shell) (m : Machine)
    (h : ∀ s c v, c ∈ userCall :: schemaCalls "web_crawler" → E.call s c = .error v →
      v.isNullish = false) :
    (mongoInit E m).1 = Completion.normal () := by
  have h1 := phase1_normal E { m with db := "admin" }
    (fun v hv => h _ _ v (by simp [userCall]) hv)
  have h2 := fun m2 : Machine => phase2_normal E { m2 with db := "web_crawler" }
    (fun s c v hc hv => h s c v (List.mem_cons_of_mem _ hc) hv)
  simp only [mongoInit, bind, getSiblingDB]
  cases hp : phase1 E { m with db := "admin" } with
  | mk r m1 =>
    rw [hp] at h1
    simp only at h1
    subst h1
    simp only []
    have := h2 m1
    cases hq : phase2 E { m1 with db := "web_crawler" } with
    | mk r2 m2 =>
      rw [hq] at this
      simp only at this
      subst this
      rfl

/-- C5, amended, on the strict server at a provisioned state, where
`createUser` and `createCollection` both throw error objects. -/
theorem no_failure_is_fatal_witness :
    (mongoInit strictShell
      (Machine.start (bootstrap sampleErr "test" Server.empty) "test")).2.trace =
      [(userCall, some (.object (sampleErr userCall))),
       (.createCollection "web_crawler" "sources",
         some (.object (sampleErr (.createCollection "web_crawler" "sources"))))] ∧
    (mongoInit strictShell
      (Machine.start (bootstrap sampleErr "test" Server.empty) "test")).1 = .normal () :=
  ⟨by decide,
   no_failure_is_fatal strictShell _ (fun s c v _ hv => by
    simp only [strictShell] at hv
    cases hs : strictDb sampleErr s c with
    | ok t => rw [hs] at hv; simp at hv
    | error e =>
      rw [hs] at hv
      simp only [Except.error.injEq] at hv
      subst hv
      rfl)⟩

end Raw

/-- C6: two runs that differ only in what `createUser` answers (on servers that
answer the schema calls alike whenever `web_crawler` is in the same state, and
in which `createUser` does not touch `web_crawler`) both send `createUser` first
and then the same non-empty sequence of schema calls with the same outcomes,
leave `web_crawler` in the same state and print the same Phase 2 line after
their Phase 1 line. -/
theorem phase2_independent (B1 B2 : Backend) (s1 s2 : Server) (db1 db2 : String)
    (hs : s1 "web_crawler" = s2 "web_crawler")
    (hu1 : ∀ t, B1 s1 userCall = .ok t → t "web_crawler" = s1 "web_crawler")
    (hu2 : ∀ t, B2 s2 userCall = .ok t → t "web_crawler" = s2 "web_crawler")
    (hB : ∀ t1 t2 c, c ∈ schemaCalls "web_crawler" → t1 "web_crawler" = t2 "web_crawler" →
      agreeOn "web_crawler" (B1 t1 c) (B2 t2 c)) :
    ∃ o1 o2 t l1 l1' l2,
      (run B1 s1 db1).trace = (userCall, o1) :: t ∧
      (run B2 s2 db2).trace = (userCall, o2) :: t ∧
      t ≠ [] ∧
      (run B1 s1 db1).server "web_crawler" = (run B2 s2 db2).server "web_crawler" ∧
      (run B1 s1 db1).out = [l1, l2] ∧
      (run B2 s2 db2).out = [l1', l2] := by
  have ha : after B1 s1 userCall "web_crawler" = after B2 s2 userCall "web_crawler" := by
    have e1 : after B1 s1 userCall "web_crawler" = s1 "web_crawler" := by
      unfold after
      cases h : B1 s1 userCall with
      | error e => rfl
      | ok t => exact hu1 t h
    have e2 : after B2 s2 userCall "web_crawler" = s2 "web_crawler" := by
      unfold after
      cases h : B2 s2 userCall with
      | error e => rfl
      | ok t => exact hu2 t h
    rw [e1, e2, hs]
  obtain ⟨c1, c2, c3⟩ :=
    attempts_congr B1 B2 "web_crawler" (schemaCalls "web_crawler") hB _ _ ha
  have hne : (attempts B1 (after B1 s1 userCall) (schemaCalls "web_crawler")).1 ≠ [] := by
    cases h : B1 (after B1 s1 userCall) (Call.createCollection "web_crawler" "sources") <;>
      simp [schemaCalls, attempts, h]
  rw [run_eq, run_eq]
  simp only [← c1, ← c3]
  exact ⟨_, _, _, _, _, _, rfl, rfl, hne, c2, rfl, rfl⟩

/-- C6 at the fresh instance: one run in which `createUser` succeeds and one
in which it throws the duplicate signature print different Phase 1 lines,
leave `web_crawler` in the same state and print the same Phase 2 line. -/
theorem phase2_independent_witness :
    (run (strictDb sampleErr) Server.empty "test").out.head? = some lineUserCreated ∧
    (run dupUserDb Server.empty "test").out.head? = some lineUserExists ∧
    (run (strictDb sampleErr) Server.empty "test").server "web_crawler" =
      (run dupUserDb Server.empty "test").server "web_crawler" ∧
    (run (strictDb sampleErr) Server.empty "test").out.tail =
      (run dupUserDb Server.empty "test").out.tail := by
  obtain ⟨o1, o2, t, l1, l1', l2, _, _, _, h4, h5, h6⟩ :=
    phase2_independent (strictDb sampleErr) dupUserDb Server.empty Server.empty "test" "test" rfl
      (fun t h => by
        simp only [strictDb, userCall, targetExists, Server.empty, List.any_nil,
          Bool.false_eq_true, if_false, Except.ok.injEq] at h
        subst h
        rfl)
      (fun t h => by simp [dupUserDb, userCall] at h)
      (fun t1 t2 c hc h => by
        have e : dupUserDb t2 c = strictDb sampleErr t2 c := by
          simp only [schemaCalls, List.mem_cons, List.mem_singleton, List.not_mem_nil,
            or_false] at hc
          rcases hc with h | h | h | h | h | h <;> subst h <;> rfl
        rw [e]
        exact strictDb_agree sampleErr "web_crawler" t1 t2 c (schemaCalls_db _ c hc) h)
  exact ⟨by decide, by decide, h4, by rw [h5, h6]; rfl⟩

/-- C7: Phase 1 prints exactly one line.  It is the "created successfully"
line iff `createUser` does not throw, the "already exists" line iff it throws an
error whose code is 11000, and the "Error creating user" line carrying the
error iff it throws an error with any other code. -/
theorem phase1_classification (B : Backend) (m : Machine) :
    ∃ l, (phase1 B m).2.out = m.out ++ [l] ∧
      (l = lineUserCreated ↔ ∃ t, B m.server (.createUser m.db crawlerAdmin) = .ok t) ∧
      (l = lineUserExists ↔
        ∃ e, B m.server (.createUser m.db crawlerAdmin) = .error e ∧ e.code = JsVal.num 11000) ∧
      (∀ e, l = lineUserError e ↔
        B m.server (.createUser m.db crawlerAdmin) = .error e ∧ e.code ≠ JsVal.num 11000) := by
  rw [phase1_eq]
  cases h : B m.server (.createUser m.db crawlerAdmin) with
  | ok t =>
    refine ⟨lineUserCreated, rfl, by simp, ?_, ?_⟩
    · simp [lineUserCreated, lineUserExists]
    · intro e; simp [lineUserCreated, lineUserError]
  | error e =>
    by_cases hc : e.code = JsVal.num 11000
    · refine ⟨lineUserExists, by simp [hc], ?_, by simp [hc], ?_⟩
      · simp [lineUserCreated, lineUserExists]
      · intro e1; simp [lineUserExists, lineUserError]
        intro h1; rw [← h1]; exact hc
    · refine ⟨lineUserError e, by simp [hc], ?_, ?_, ?_⟩
      · simp [lineUserCreated, lineUserError]
      · simp [lineUserExists, lineUserError, hc]
      · intro e1
        simp only [lineUserError, List.cons.injEq, PrintArg.err.injEq, true_and, and_true,
          Except.error.injEq]
        constructor
        · intro h1; exact ⟨h1, by rw [← h1]; exact hc⟩
        · intro h1; exact h1.1

/-- C8: in a run in which every call succeeds the index requests are exactly
three, all sent to `web_crawler`: a text index on `crawled_data` with keys
(content: text, title: text), an index without options on `crawled_data` with
keys (source_id: 1, timestamp: 1), and an index on `sources` with key (url: 1)
and `unique: true`.  Only the last is unique and none is on `crawl_logs`. -/
theorem declared_indexes (B : Backend) (s : Server) (db0 : String)
    (h : ∀ x ∈ (run B s db0).trace, x.2 = none) :
    requestedIndexes (run B s db0).trace =
      [ ("web_crawler", { collection := "crawled_data",
                          keys := [("content", .str "text"), ("title", .str "text")],
                          options := [] }),
        ("web_crawler", { collection := "crawled_data",
                          keys := [("source_id", .num 1), ("timestamp", .num 1)],
                          options := [] }),
        ("web_crawler", { collection := "sources",
                          keys := [("url", .num 1)],
                          options := [("unique", .bool true)] }) ] ∧
    (requestedIndexes (run B s db0).trace).map (fun x => x.2.isUnique) = [false, false, true] ∧
    (requestedIndexes (run B s db0).trace).map (fun x => x.2.isText) = [true, false, false] ∧
    (requestedIndexes (run B s db0).trace).all (fun x => x.2.collection != "crawl_logs") = true := by
  rw [run_eq] at h ⊢
  rcases attempts_log B (schemaCalls "web_crawler") (after B s userCall) with
    ⟨_, h2⟩ | ⟨k, c, e, _, _, h2⟩
  · rw [h2]
    refine ⟨?_, ?_, ?_, ?_⟩ <;> simp [requestedIndexes, schemaCalls, userCall] <;> decide
  · have := h (c, some e) (by rw [h2]; simp)
    simp at this

/-- C8 at the fresh instance of the strict server, where every call succeeds. -/
theorem declared_indexes_witness :
    (∀ x ∈ (run (strictDb sampleErr) Server.empty "test").trace, x.2 = none) ∧
    (requestedIndexes (run (strictDb sampleErr) Server.empty "test").trace).map
      (fun x => x.2.isUnique) = [false, false, true] :=
  ⟨by decide, (declared_indexes (strictDb sampleErr) Server.empty "test" (by decide)).2.1⟩

/-- C9: Phase 2 prints exactly one line.  It is the "created successfully"
confirmation iff all six schema calls were sent and none threw; otherwise the
calls sent are the ones before the first call that threw, then that call, and
the line is the "may already exist" line carrying that error's message,
whatever the error is. -/
theorem phase2_reporting (B : Backend) (m : Machine) :
    ∃ l t, (phase2 B m).2.out = m.out ++ [l] ∧ (phase2 B m).2.trace = m.trace ++ t ∧
      (l = lineSchemaCreated ↔ t = (schemaCalls m.db).map (fun c => (c, none))) ∧
      (t = (schemaCalls m.db).map (fun c => (c, none)) ∨
        ∃ k c e, (schemaCalls m.db)[k]? = some c ∧
          t = ((schemaCalls m.db).take k).map (fun c => (c, none)) ++ [(c, some e)] ∧
          l = lineSchemaMayExist e.message) := by
  rw [phase2_eq]
  rcases attempts_log B (schemaCalls m.db) m.server with ⟨h1, h2⟩ | ⟨k, c, e, hk, h1, h2⟩
  · exact ⟨lineSchemaCreated, _, by simp [h1], rfl, by simp [h2], Or.inl h2⟩
  · refine ⟨lineSchemaMayExist e.message, _, by simp [h1], rfl, ?_, Or.inr ⟨k, c, e, hk, h2, rfl⟩⟩
    constructor
    · intro h; simp [lineSchemaMayExist, lineSchemaCreated] at h
    · intro h
      rw [h2] at h
      have hmem : (c, some e) ∈ (schemaCalls m.db).map (fun c => ((c, none) : Call × Option Err)) := by
        rw [← h]; simp
      simp at hmem

/-- C10: in every run the calls sent are `createUser` and then the schema calls
in program order, either all six with no failure or up to and including the
first one that throws; the final server state is the result of the calls sent
(each successful call keeps its effect, a throwing call changes nothing); and
an index call is sent only after the three `createCollection` calls of the
same run have succeeded. -/
theorem call_order (B : Backend) (s : Server) (db0 : String) :
    ∃ o t, (run B s db0).trace = (userCall, o) :: t ∧
      (o = none ↔ ∃ s1, B s userCall = .ok s1) ∧
      (t = (schemaCalls "web_crawler").map (fun c => (c, none)) ∨
        ∃ k c e, (schemaCalls "web_crawler")[k]? = some c ∧
          t = ((schemaCalls "web_crawler").take k).map (fun c => (c, none)) ++ [(c, some e)]) ∧
      (run B s db0).server = (((run B s db0).trace).map Prod.fst).foldl (after B) s ∧
      (∀ d r, (Call.createIndex "web_crawler" d, r) ∈ t →
        (Call.createCollection "web_crawler" "sources", none) ∈ t ∧
        (Call.createCollection "web_crawler" "crawled_data", none) ∈ t ∧
        (Call.createCollection "web_crawler" "crawl_logs", none) ∈ t) := by
  rw [run_eq]
  refine ⟨_, _, rfl, ?_, ?_, ?_, ?_⟩
  · cases h : B s userCall <;> simp
  · rcases attempts_log B (schemaCalls "web_crawler") (after B s userCall) with
      ⟨_, h2⟩ | ⟨k, c, e, hk, _, h2⟩
    · exact Or.inl h2
    · exact Or.inr ⟨k, c, e, hk, h2⟩
  · simp only [List.map_cons, List.foldl_cons]
    exact attempts_server B _ _
  · intro d r hd
    rcases attempts_log B (schemaCalls "web_crawler") (after B s userCall) with
      ⟨_, h2⟩ | ⟨k, c, e, hk, _, h2⟩
    · rw [h2]; simp [schemaCalls]
    · rw [h2] at hd ⊢
      clear h2
      have hk6 : k < 6 := by
        have := (List.getElem?_eq_some.1 hk).1
        simpa [schemaCalls] using this
      interval_cases k <;> simp [schemaCalls] at hk <;> subst hk <;>
        simp [schemaCalls] at hd ⊢

end MongoInit
